import Mathlib

/-!
Shallow embedding of the OracleBot market-monitoring core
(src/bot/marketMonitor.js and src/bot/polymarketMonitor.js).

JavaScript numbers are modelled as real numbers (the idealised
arithmetic the spec reasons in); JavaScript objects whose fields may be
absent are modelled with `Option` fields (an absent field reads as
`undefined`, i.e. `none`).  External asynchronous calls (the oracle
contract) are modelled by passing the call's outcome as an explicit
`Option` argument: `none` is a failed/throwing call.
-/

namespace OracleBot

noncomputable section

/-- Mean of a list of returns: `returns.reduce((a, b) => a + b, 0) / returns.length`
(marketMonitor.js line 59, polymarketMonitor.js line 214). -/
def meanOf (l : List ℝ) : ℝ := l.sum / (l.length : ℝ)

/-- Population variance of a list of returns:
`returns.reduce((sum, ret) => sum + Math.pow(ret - meanReturn, 2), 0) / returns.length`
(marketMonitor.js line 60, polymarketMonitor.js line 215). -/
def varianceOf (l : List ℝ) : ℝ :=
  (l.map (fun ret => (ret - meanOf l) ^ 2)).sum / (l.length : ℝ)

/-- Rolling volatility: `Math.sqrt(variance)` (marketMonitor.js line 61). -/
def volatilityOf (l : List ℝ) : ℝ := Real.sqrt (varianceOf l)

/-- Simple returns `(p[i] - p[i-1]) / p[i-1]` for `i = 1 .. n-1`
(marketMonitor.js lines 53-57). -/
def returnsOf (priceHistory : List ℝ) : List ℝ :=
  List.zipWith (fun cur prev => (cur - prev) / prev) priceHistory.tail priceHistory

/-- Simple returns with the epsilon-guarded denominator
`(p[i] - p[i-1]) / (p[i-1] + 1e-10)` (polymarketMonitor.js lines 208-212). -/
def returnsOfEps (priceHistory : List ℝ) : List ℝ :=
  List.zipWith (fun cur prev => (cur - prev) / (prev + 1e-10)) priceHistory.tail priceHistory

/-- The damping value computed from a volatility before the final clamp:
`normalizedVol = Math.min(volatility * 100, 1)`;
`eta = 0.3 + (0.6 / (1 + normalizedVol * 10))`
(marketMonitor.js lines 64-69, polymarketMonitor.js lines 219-220). -/
def preEtaOfVol (volatility : ℝ) : ℝ :=
  0.3 + 0.6 / (1 + min (volatility * 100) 1 * 10)

/-- The damping value after the final clamp
`Math.max(0.1, Math.min(0.95, eta))` (marketMonitor.js line 71). -/
def etaOfVol (volatility : ℝ) : ℝ :=
  max 0.1 (min 0.95 (preEtaOfVol volatility))

/-- Trailing window `priceHistory.slice(-20)` (marketMonitor.js line 106). -/
def recent20 (priceHistory : List ℝ) : List ℝ :=
  priceHistory.drop (priceHistory.length - 20)

namespace MarketMonitor

/-- `MarketMonitor.calculateEta` (marketMonitor.js lines 49-72):
fewer than 10 prices returns the neutral default `0.707`; otherwise the
volatility of the simple returns is mapped through `etaOfVol`. -/
def calculateEta (priceHistory : List ℝ) : ℝ :=
  if priceHistory.length < 10 then 0.707
  else etaOfVol (volatilityOf (returnsOf priceHistory))

/-- The coupling value computed before the final clamp in
`MarketMonitor.calculateLambda` (marketMonitor.js lines 84-93):
`imbalance = (bid - ask) / (bid + ask + 1e-10)`;
`couplingStrength = Math.abs(imbalance)`; `lambda = 0.3 + couplingStrength * 0.6`. -/
def preLambda (bidVolume askVolume : ℝ) : ℝ :=
  0.3 + |(bidVolume - askVolume) / (bidVolume + askVolume + 1e-10)| * 0.6

/-- `MarketMonitor.calculateLambda` (marketMonitor.js lines 79-96). -/
def calculateLambda (bidVolume askVolume : ℝ) : ℝ :=
  if bidVolume = 0 ∧ askVolume = 0 then 0.707
  else max 0.1 (min 0.95 (preLambda bidVolume askVolume))

/-- `momentum = (recent[recent.length - 1] - recent[0]) / recent[0]`
(marketMonitor.js line 107). -/
def momentumOf (priceHistory : List ℝ) : ℝ :=
  ((recent20 priceHistory).getLastI - (recent20 priceHistory).headI) /
    (recent20 priceHistory).headI

/-- The coupling value computed before the final clamp in
`MarketMonitor.calculateLambdaFromMomentum` (marketMonitor.js lines 110-111):
`lambda = 0.3 + Math.min(momentumStrength * 5, 0.6)`. -/
def preLambdaFromMomentum (priceHistory : List ℝ) : ℝ :=
  0.3 + min (|momentumOf priceHistory| * 5) 0.6

/-- `MarketMonitor.calculateLambdaFromMomentum` (marketMonitor.js lines 102-114). -/
def calculateLambdaFromMomentum (priceHistory : List ℝ) : ℝ :=
  if priceHistory.length < 20 then 0.707
  else max 0.1 (min 0.95 (preLambdaFromMomentum priceHistory))

end MarketMonitor

namespace PolymarketMonitor

/-- `PolymarketMonitor.calculateEta` (polymarketMonitor.js lines 205-223):
identical to the MarketMonitor version except for the epsilon-guarded
return denominator. -/
def calculateEta (priceHistory : List ℝ) : ℝ :=
  if priceHistory.length < 10 then 0.707
  else etaOfVol (volatilityOf (returnsOfEps priceHistory))

/-- The coupling value computed before the final clamp in
`PolymarketMonitor.calculateLambda` (polymarketMonitor.js lines 265-272):
imbalance blended with the spread factor `Math.max(0, 1 - priceSpread * 2)`. -/
def preLambda (yesVolume noVolume yesPrice noPrice : ℝ) : ℝ :=
  let totalVolume := yesVolume + noVolume
  let imbalance := if totalVolume > 0 then (yesVolume - noVolume) / totalVolume else 0
  let priceSpread := |yesPrice - noPrice|
  let spreadFactor := max 0 (1 - priceSpread * 2)
  let couplingStrength := (|imbalance| + spreadFactor) / 2
  0.3 + couplingStrength * 0.6

/-- `PolymarketMonitor.calculateLambda` (polymarketMonitor.js lines 262-275). -/
def calculateLambda (yesVolume noVolume yesPrice noPrice : ℝ) : ℝ :=
  if yesVolume = 0 ∧ noVolume = 0 then 0.707
  else max 0.1 (min 0.95 (preLambda yesVolume noVolume yesPrice noPrice))

/-- `momentum = (recent[recent.length - 1] - recent[0]) / (recent[0] + 1e-10)`
(polymarketMonitor.js line 284). -/
def momentumOfEps (priceHistory : List ℝ) : ℝ :=
  ((recent20 priceHistory).getLastI - (recent20 priceHistory).headI) /
    ((recent20 priceHistory).headI + 1e-10)

/-- Pre-clamp value of `PolymarketMonitor.calculateLambdaFromMomentum`
(polymarketMonitor.js lines 286-287). -/
def preLambdaFromMomentum (priceHistory : List ℝ) : ℝ :=
  0.3 + min (|momentumOfEps priceHistory| * 5) 0.6

/-- `PolymarketMonitor.calculateLambdaFromMomentum` (polymarketMonitor.js lines 280-290). -/
def calculateLambdaFromMomentum (priceHistory : List ℝ) : ℝ :=
  if priceHistory.length < 20 then 0.707
  else max 0.1 (min 0.95 (preLambdaFromMomentum priceHistory))

end PolymarketMonitor

/-- `x.toFixed(3)` read back as a number: rounding to three decimal digits. -/
def toFixed3 (x : ℝ) : ℝ := (round (x * 1000) : ℝ) / 1000

/-- `x.toFixed(0)` read back as a number: rounding to an integer. -/
def toFixed0 (x : ℝ) : ℝ := (round x : ℝ)

/-- One simulated outcome token built by
`PolymarketMonitor.generateSimulatedMarket` (polymarketMonitor.js lines 180-197).
The source stores `price`, `lastPrice`, `volume24h` and `volume` as
`toFixed` strings; they are modelled as the rounded numbers those strings denote. -/
structure SimToken where
  outcome : String
  side : String
  price : ℝ
  lastPrice : ℝ
  volume24h : ℝ
  volume : ℝ

instance : Inhabited SimToken := ⟨⟨"", "", 0, 0, 0, 0⟩⟩

/-- The object returned by `PolymarketMonitor.generateSimulatedMarket`
(polymarketMonitor.js lines 171-199).  JavaScript objects are open records:
any field the code never assigns reads as `undefined`.  The `synthetic`
field stands for a marker/tag field of the reading; the generator assigns
no such field, so it is `none`.  The cosmetic title-casing of `question`
is not modelled (the field carries the raw slug). -/
structure SimulatedMarket where
  slug : String
  question : String
  tokens : List SimToken
  synthetic : Option Bool

/-- `PolymarketMonitor.generateSimulatedMarket` (polymarketMonitor.js lines 171-199).
The five `Math.random()` draws are passed explicitly, in the order the
source evaluates them: `r0` for `basePrice`, then `r1 r2` for the Yes
token's volumes and `r3 r4` for the No token's volumes. -/
def PolymarketMonitor.generateSimulatedMarket (marketSlug : String)
    (r0 r1 r2 r3 r4 : ℝ) : SimulatedMarket :=
  let basePrice := 0.5 + (r0 - 0.5) * 0.2
  let yesPrice := max 0.1 (min 0.9 basePrice)
  let noPrice := 1 - yesPrice
  { slug := marketSlug
    question := marketSlug
    tokens :=
      [ { outcome := "Yes", side := "yes",
          price := toFixed3 yesPrice, lastPrice := toFixed3 yesPrice,
          volume24h := toFixed0 (r1 * 1000000 + 500000),
          volume := toFixed0 (r2 * 1000000 + 500000) },
        { outcome := "No", side := "no",
          price := toFixed3 noPrice, lastPrice := toFixed3 noPrice,
          volume24h := toFixed0 (r3 * 1000000 + 500000),
          volume := toFixed0 (r4 * 1000000 + 500000) } ]
    synthetic := none }

/-- The Yes token of a simulated market (`tokens[0]`). -/
def PolymarketMonitor.simulatedYesToken (marketSlug : String)
    (r0 r1 r2 r3 r4 : ℝ) : SimToken :=
  (PolymarketMonitor.generateSimulatedMarket marketSlug r0 r1 r2 r3 r4).tokens.headI

/-- The No token of a simulated market (`tokens[1]`, the last token). -/
def PolymarketMonitor.simulatedNoToken (marketSlug : String)
    (r0 r1 r2 r3 r4 : ℝ) : SimToken :=
  (PolymarketMonitor.generateSimulatedMarket marketSlug r0 r1 r2 r3 r4).tokens.getLastI

/-- The raw values returned by the three chained oracle contract calls
`computeDelta`, `efficiency`, `isOptimal` (marketMonitor.js lines 122-124).
The contract is a black box; a cycle observes either one such response or
a failure (`none`). -/
structure OracleResponse where
  delta : ℝ
  efficiency : ℝ
  isOptimal : Bool

/-- The result object built by `computeOracleDelta`
(marketMonitor.js lines 126-134, polymarketMonitor.js lines 301-309). -/
structure OracleResult where
  delta : ℝ
  deltaDecimal : ℝ
  efficiency : ℝ
  efficiencyPercent : ℝ
  isOptimal : Bool
  eta : ℝ
  lambda : ℝ

/-- `computeOracleDelta` (marketMonitor.js lines 116-139, polymarketMonitor.js
lines 292-314): on success it interprets the raw response
(`deltaDecimal = delta / 1000`, `efficiencyPercent = efficiency / 1e9 * 100`);
the `catch` branch returns `null`, modelled as `none`. -/
def computeOracleDelta (eta lambda : ℝ) (response : Option OracleResponse) :
    Option OracleResult :=
  match response with
  | none => none
  | some r =>
    some { delta := r.delta
           deltaDecimal := r.delta / 1000
           efficiency := r.efficiency
           efficiencyPercent := r.efficiency / 1e9 * 100
           isOptimal := r.isOptimal
           eta := eta
           lambda := lambda }

/-- The fixed-point scaling of a parameter for the contract:
`Math.floor(eta * 1e9)` (marketMonitor.js lines 119-120,
polymarketMonitor.js lines 294-295). -/
def scaleToFixedPoint (x : ℝ) : ℤ := ⌊x * 1e9⌋

/-- Truncation toward zero, the rounding mode the spec ascribes to the
fixed-point scaling. -/
def truncTowardZero (x : ℝ) : ℤ := if 0 ≤ x then ⌊x⌋ else ⌈x⌉

/-- The running statistics record `this.stats`
(marketMonitor.js lines 23-28, polymarketMonitor.js lines 27-32). -/
structure Stats where
  readings : ℕ
  optimalCount : ℕ
  avgDelta : ℝ
  avgEfficiency : ℝ

/-- The constructor's initial statistics: all zero. -/
def initialStats : Stats := ⟨0, 0, 0, 0⟩

/-- `updateStats` (marketMonitor.js lines 268-275, polymarketMonitor.js
lines 476-483): increment `readings`, fold the new delta and efficiency
into the running means, and increment `optimalCount` when `isOptimal`. -/
def updateStats (stats : Stats) (result : OracleResult) : Stats :=
  let readings := stats.readings + 1
  { readings := readings
    avgDelta := (stats.avgDelta * ((readings : ℝ) - 1) + result.delta) / (readings : ℝ)
    avgEfficiency :=
      (stats.avgEfficiency * ((readings : ℝ) - 1) + result.efficiencyPercent) / (readings : ℝ)
    optimalCount := if result.isOptimal then stats.optimalCount + 1 else stats.optimalCount }

/-- One per-tick insertion into the bounded price history:
`this.priceHistory.push(price); if (this.priceHistory.length > this.maxHistorySize)
this.priceHistory.shift();` (marketMonitor.js lines 166-169,
polymarketMonitor.js lines 349-352). -/
def pushPrice {α : Type} (maxHistorySize : ℕ) (history : List α) (price : α) : List α :=
  let h := history ++ [price]
  if h.length > maxHistorySize then h.tail else h

/-- The per-tick cycle after a price arrives (marketMonitor.js lines 166-188,
polymarketMonitor.js lines 349-388): append the price to the history,
derive the parameters, interpret the oracle call, and on success update
the statistics and report whether the critical-equilibrium alert fires.
The returned `Bool` is true exactly when `alertCriticalEquilibrium` is invoked. -/
def processTick (maxHistorySize : ℕ) (history : List ℝ) (stats : Stats) (price : ℝ)
    (response : Option OracleResponse) : List ℝ × Stats × Bool :=
  let history1 := pushPrice maxHistorySize history price
  let eta := MarketMonitor.calculateEta history1
  let lambda := MarketMonitor.calculateLambdaFromMomentum history1
  match computeOracleDelta eta lambda response with
  | some result => (history1, updateStats stats result, result.isOptimal)
  | none => (history1, stats, false)

/-- The fixed reconnect delay of the push transport: 5000 ms
(marketMonitor.js line 202). -/
def reconnectDelayMs : ℕ := 5000

/-- The WebSocket `close` handler (marketMonitor.js lines 199-204), as the
list of resubscription delays it schedules: one `setTimeout` of
`reconnectDelayMs` when the run flag is true, nothing otherwise. -/
def handleClose (isRunning : Bool) : List ℕ :=
  if isRunning then [reconnectDelayMs] else []

/-! ### Helper lemmas about the clamp `Math.max(0.1, Math.min(0.95, x))` -/

lemma clamp_lb (x : ℝ) : (0.1 : ℝ) ≤ max 0.1 (min 0.95 x) :=
  le_max_left _ _

lemma clamp_ub (x : ℝ) : max 0.1 (min 0.95 x) ≤ 0.95 :=
  max_le (by norm_num) (min_le_left _ _)

lemma clamp_mono {x y : ℝ} (h : x ≤ y) :
    max 0.1 (min 0.95 x) ≤ max 0.1 (min 0.95 y) :=
  max_le_max le_rfl (min_le_min le_rfl h)

lemma clamp_eq_self {x : ℝ} (h1 : 0.1 ≤ x) (h2 : x ≤ 0.95) :
    max 0.1 (min 0.95 x) = x := by
  rw [min_eq_right h2, max_eq_right h1]

/-! ### Helper lemmas about the damping map -/

lemma preEtaOfVol_bounds {v : ℝ} (hv : 0 ≤ v) :
    0.3 ≤ preEtaOfVol v ∧ preEtaOfVol v ≤ 0.9 := by
  have ha0 : 0 ≤ min (v * 100) 1 := le_min (by positivity) (by norm_num)
  have ha1 : min (v * 100) 1 ≤ 1 := min_le_right _ _
  have hd1 : (1 : ℝ) ≤ 1 + min (v * 100) 1 * 10 := by nlinarith
  have hdpos : (0 : ℝ) < 1 + min (v * 100) 1 * 10 := by linarith
  have h1 : (0.6 : ℝ) / (1 + min (v * 100) 1 * 10) ≤ 0.6 :=
    div_le_self (by norm_num) hd1
  have h2 : (0 : ℝ) < 0.6 / (1 + min (v * 100) 1 * 10) :=
    div_pos (by norm_num) hdpos
  unfold preEtaOfVol
  constructor
  · linarith
  · linarith

lemma preEtaOfVol_anti {v1 v2 : ℝ} (h0 : 0 ≤ v1) (h12 : v1 ≤ v2) :
    preEtaOfVol v2 ≤ preEtaOfVol v1 := by
  unfold preEtaOfVol
  have ha : min (v1 * 100) 1 ≤ min (v2 * 100) 1 :=
    min_le_min (by nlinarith) le_rfl
  have ha0 : 0 ≤ min (v1 * 100) 1 := le_min (by positivity) (by norm_num)
  have hpos : (0 : ℝ) < 1 + min (v1 * 100) 1 * 10 := by linarith
  have hkey := div_le_div_of_nonneg_left (by norm_num : (0 : ℝ) ≤ 0.6) hpos
    (by linarith : 1 + min (v1 * 100) 1 * 10 ≤ 1 + min (v2 * 100) 1 * 10)
  linarith

lemma etaOfVol_mem (v : ℝ) : 0.1 ≤ etaOfVol v ∧ etaOfVol v ≤ 0.95 :=
  ⟨clamp_lb _, clamp_ub _⟩

lemma etaOfVol_anti {v1 v2 : ℝ} (h0 : 0 ≤ v1) (h12 : v1 ≤ v2) :
    etaOfVol v2 ≤ etaOfVol v1 :=
  clamp_mono (preEtaOfVol_anti h0 h12)

lemma etaOfVol_eq_pre {v : ℝ} (hv : 0 ≤ v) : etaOfVol v = preEtaOfVol v :=
  clamp_eq_self (by linarith [(preEtaOfVol_bounds hv).1])
    (by linarith [(preEtaOfVol_bounds hv).2])

/-! ### Helper lemmas about the coupling maps -/

lemma MM_preLambda_bounds {b a : ℝ} (hb : 0 ≤ b) (ha : 0 ≤ a) :
    0.3 ≤ MarketMonitor.preLambda b a ∧ MarketMonitor.preLambda b a ≤ 0.9 := by
  unfold MarketMonitor.preLambda
  have heps : (0 : ℝ) < 1e-10 := by norm_num
  have hden : (0 : ℝ) < b + a + 1e-10 := by linarith
  have habs : |(b - a) / (b + a + 1e-10)| ≤ 1 := by
    rw [abs_div, abs_of_pos hden, div_le_one hden]
    have h1 : |b - a| ≤ b + a := abs_le.mpr ⟨by linarith, by linarith⟩
    linarith
  have habs0 : 0 ≤ |(b - a) / (b + a + 1e-10)| := abs_nonneg _
  constructor
  · nlinarith
  · nlinarith

lemma MM_preLambdaFromMomentum_bounds (h : List ℝ) :
    0.3 ≤ MarketMonitor.preLambdaFromMomentum h ∧
    MarketMonitor.preLambdaFromMomentum h ≤ 0.9 := by
  unfold MarketMonitor.preLambdaFromMomentum
  have h0 : 0 ≤ min (|MarketMonitor.momentumOf h| * 5) 0.6 :=
    le_min (by positivity) (by norm_num)
  have h1 : min (|MarketMonitor.momentumOf h| * 5) 0.6 ≤ 0.6 := min_le_right _ _
  constructor
  · linarith
  · linarith

lemma PM_preLambda_bounds {y n : ℝ} (hy : 0 ≤ y) (hn : 0 ≤ n) (yp np : ℝ) :
    0.3 ≤ PolymarketMonitor.preLambda y n yp np ∧
    PolymarketMonitor.preLambda y n yp np ≤ 0.9 := by
  unfold PolymarketMonitor.preLambda
  have himb : |if y + n > 0 then (y - n) / (y + n) else 0| ≤ 1 := by
    split
    · rename_i hpos
      rw [abs_div, abs_of_pos hpos, div_le_one hpos]
      exact abs_le.mpr ⟨by linarith, by linarith⟩
    · simp
  have himb0 : 0 ≤ |if y + n > 0 then (y - n) / (y + n) else 0| := abs_nonneg _
  have hsf0 : (0 : ℝ) ≤ max 0 (1 - |yp - np| * 2) := le_max_left _ _
  have hsf1 : max 0 (1 - |yp - np| * 2) ≤ 1 := by
    have := abs_nonneg (yp - np)
    exact max_le (by norm_num) (by nlinarith)
  constructor
  · nlinarith
  · nlinarith

/-! ### Claim theorems -/

/-- C3: For all volume inputs, `calculateLambda` (both monitor variants) returns
a value in [0.1, 0.95]; and when both volumes are exactly 0 it returns exactly
0.707 (in the Polymarket variant, for any prices). -/
theorem calculateLambda_range_and_zero_default :
    (∀ b a : ℝ, 0.1 ≤ MarketMonitor.calculateLambda b a ∧
      MarketMonitor.calculateLambda b a ≤ 0.95) ∧
    MarketMonitor.calculateLambda 0 0 = 0.707 ∧
    (∀ y n yp np : ℝ, 0.1 ≤ PolymarketMonitor.calculateLambda y n yp np ∧
      PolymarketMonitor.calculateLambda y n yp np ≤ 0.95) ∧
    (∀ yp np : ℝ, PolymarketMonitor.calculateLambda 0 0 yp np = 0.707) := by
  refine ⟨fun b a => ?_, ?_, fun y n yp np => ?_, fun yp np => ?_⟩
  · unfold MarketMonitor.calculateLambda
    split
    · norm_num
    · exact ⟨clamp_lb _, clamp_ub _⟩
  · exact if_pos ⟨rfl, rfl⟩
  · unfold PolymarketMonitor.calculateLambda
    split
    · norm_num
    · exact ⟨clamp_lb _, clamp_ub _⟩
  · exact if_pos ⟨rfl, rfl⟩

/-- C10 counterexample: at bid volume 1 and ask volume −1 the pre-clamp
coupling value is far above 0.9, and the clamped output is 0.95 — neither the
neutral default 0.707 nor a value in [0.3, 0.9].  The claim's "for every
input" therefore fails; it needs nonnegative volume inputs. -/
theorem lambda_preclamp_counterexample :
    ¬(0.3 ≤ MarketMonitor.preLambda 1 (-1) ∧ MarketMonitor.preLambda 1 (-1) ≤ 0.9) ∧
    MarketMonitor.calculateLambda 1 (-1) = 0.95 ∧
    MarketMonitor.calculateLambda 1 (-1) ≠ 0.707 ∧
    ¬(0.3 ≤ MarketMonitor.calculateLambda 1 (-1) ∧
      MarketMonitor.calculateLambda 1 (-1) ≤ 0.9) := by
  have hdiv : ((1 : ℝ) - (-1)) / (1 + (-1) + 1e-10) = 20000000000 := by norm_num
  have hpre : MarketMonitor.preLambda 1 (-1) = 0.3 + 20000000000 * 0.6 := by
    unfold MarketMonitor.preLambda
    rw [hdiv, abs_of_nonneg (by norm_num : (0 : ℝ) ≤ 20000000000)]
  have hlam : MarketMonitor.calculateLambda 1 (-1) = 0.95 := by
    unfold MarketMonitor.calculateLambda
    rw [if_neg (by norm_num : ¬((1 : ℝ) = 0 ∧ (-1 : ℝ) = 0)), hpre,
      min_eq_left (by norm_num), max_eq_right (by norm_num)]
  refine ⟨?_, hlam, ?_, ?_⟩
  · rw [hpre]; intro hc; linarith [hc.2]
  · rw [hlam]; norm_num
  · rw [hlam]; intro hc; linarith [hc.2]

/-- C10 (amended): for nonnegative volume inputs — and all price histories —
each estimator's pre-clamp value already lies in [0.3, 0.9], the final clamp
to [0.1, 0.95] returns it unchanged, and every estimator output is either
the neutral default 0.707 or a value in [0.3, 0.9]. -/
theorem estimator_preclamp_range_amended :
    (∀ h : List ℝ, 10 ≤ h.length →
      0.3 ≤ preEtaOfVol (volatilityOf (returnsOf h)) ∧
      preEtaOfVol (volatilityOf (returnsOf h)) ≤ 0.9 ∧
      MarketMonitor.calculateEta h = preEtaOfVol (volatilityOf (returnsOf h))) ∧
    (∀ h : List ℝ, MarketMonitor.calculateEta h = 0.707 ∨
      (0.3 ≤ MarketMonitor.calculateEta h ∧ MarketMonitor.calculateEta h ≤ 0.9)) ∧
    (∀ b a : ℝ, 0 ≤ b → 0 ≤ a →
      (0.3 ≤ MarketMonitor.preLambda b a ∧ MarketMonitor.preLambda b a ≤ 0.9) ∧
      (¬(b = 0 ∧ a = 0) →
        MarketMonitor.calculateLambda b a = MarketMonitor.preLambda b a) ∧
      (MarketMonitor.calculateLambda b a = 0.707 ∨
        (0.3 ≤ MarketMonitor.calculateLambda b a ∧
          MarketMonitor.calculateLambda b a ≤ 0.9))) ∧
    (∀ h : List ℝ,
      (0.3 ≤ MarketMonitor.preLambdaFromMomentum h ∧
        MarketMonitor.preLambdaFromMomentum h ≤ 0.9) ∧
      (¬h.length < 20 →
        MarketMonitor.calculateLambdaFromMomentum h =
          MarketMonitor.preLambdaFromMomentum h) ∧
      (MarketMonitor.calculateLambdaFromMomentum h = 0.707 ∨
        (0.3 ≤ MarketMonitor.calculateLambdaFromMomentum h ∧
          MarketMonitor.calculateLambdaFromMomentum h ≤ 0.9))) ∧
    (∀ y n yp np : ℝ, 0 ≤ y → 0 ≤ n →
      (0.3 ≤ PolymarketMonitor.preLambda y n yp np ∧
        PolymarketMonitor.preLambda y n yp np ≤ 0.9) ∧
      (¬(y = 0 ∧ n = 0) →
        PolymarketMonitor.calculateLambda y n yp np =
          PolymarketMonitor.preLambda y n yp np) ∧
      (PolymarketMonitor.calculateLambda y n yp np = 0.707 ∨
        (0.3 ≤ PolymarketMonitor.calculateLambda y n yp np ∧
          PolymarketMonitor.calculateLambda y n yp np ≤ 0.9))) := by
  have hsqrt : ∀ l : List ℝ, (0 : ℝ) ≤ volatilityOf l := fun l => Real.sqrt_nonneg _
  refine ⟨fun h hlen => ?_, fun h => ?_, fun b a hb ha => ?_, fun h => ?_,
    fun y n yp np hy hn => ?_⟩
  · obtain ⟨h1, h2⟩ := preEtaOfVol_bounds (hsqrt (returnsOf h))
    refine ⟨h1, h2, ?_⟩
    unfold MarketMonitor.calculateEta
    rw [if_neg (by omega), etaOfVol_eq_pre (hsqrt _)]
  · by_cases hl : h.length < 10
    · exact Or.inl (if_pos hl)
    · right
      unfold MarketMonitor.calculateEta
      rw [if_neg hl, etaOfVol_eq_pre (hsqrt _)]
      exact preEtaOfVol_bounds (hsqrt _)
  · obtain ⟨h1, h2⟩ := MM_preLambda_bounds hb ha
    have hid : ¬(b = 0 ∧ a = 0) →
        MarketMonitor.calculateLambda b a = MarketMonitor.preLambda b a := by
      intro hba
      unfold MarketMonitor.calculateLambda
      rw [if_neg hba, clamp_eq_self (by linarith) (by linarith)]
    refine ⟨⟨h1, h2⟩, hid, ?_⟩
    by_cases hba : b = 0 ∧ a = 0
    · exact Or.inl (if_pos hba)
    · exact Or.inr (hid hba ▸ ⟨h1, h2⟩)
  · obtain ⟨h1, h2⟩ := MM_preLambdaFromMomentum_bounds h
    have hid : ¬h.length < 20 →
        MarketMonitor.calculateLambdaFromMomentum h =
          MarketMonitor.preLambdaFromMomentum h := by
      intro hl
      unfold MarketMonitor.calculateLambdaFromMomentum
      rw [if_neg hl, clamp_eq_self (by linarith) (by linarith)]
    refine ⟨⟨h1, h2⟩, hid, ?_⟩
    by_cases hl : h.length < 20
    · exact Or.inl (if_pos hl)
    · exact Or.inr (hid hl ▸ ⟨h1, h2⟩)
  · obtain ⟨h1, h2⟩ := PM_preLambda_bounds hy hn yp np
    have hid : ¬(y = 0 ∧ n = 0) →
        PolymarketMonitor.calculateLambda y n yp np =
          PolymarketMonitor.preLambda y n yp np := by
      intro hyn
      unfold PolymarketMonitor.calculateLambda
      rw [if_neg hyn, clamp_eq_self (by linarith) (by linarith)]
    refine ⟨⟨h1, h2⟩, hid, ?_⟩
    by_cases hyn : y = 0 ∧ n = 0
    · exact Or.inl (if_pos hyn)
    · exact Or.inr (hid hyn ▸ ⟨h1, h2⟩)

/-- Witness for the amended C10, instantiating every hypothesis at concrete
inputs: a ten-price history, nonnegative volumes (3, 1), a twenty-price
history, and Polymarket volumes (3, 1) with prices (0.5, 0.5). -/
theorem estimator_preclamp_range_amended_witness :
    (0.3 ≤ preEtaOfVol (volatilityOf (returnsOf (List.replicate 10 (1 : ℝ)))) ∧
      preEtaOfVol (volatilityOf (returnsOf (List.replicate 10 (1 : ℝ)))) ≤ 0.9 ∧
      MarketMonitor.calculateEta (List.replicate 10 (1 : ℝ)) =
        preEtaOfVol (volatilityOf (returnsOf (List.replicate 10 (1 : ℝ))))) ∧
    (MarketMonitor.calculateEta [] = 0.707 ∨
      (0.3 ≤ MarketMonitor.calculateEta [] ∧ MarketMonitor.calculateEta [] ≤ 0.9)) ∧
    ((0.3 ≤ MarketMonitor.preLambda 3 1 ∧ MarketMonitor.preLambda 3 1 ≤ 0.9) ∧
      MarketMonitor.calculateLambda 3 1 = MarketMonitor.preLambda 3 1 ∧
      (MarketMonitor.calculateLambda 3 1 = 0.707 ∨
        (0.3 ≤ MarketMonitor.calculateLambda 3 1 ∧
          MarketMonitor.calculateLambda 3 1 ≤ 0.9))) ∧
    ((0.3 ≤ MarketMonitor.preLambdaFromMomentum (List.replicate 20 (1 : ℝ)) ∧
      MarketMonitor.preLambdaFromMomentum (List.replicate 20 (1 : ℝ)) ≤ 0.9) ∧
      MarketMonitor.calculateLambdaFromMomentum (List.replicate 20 (1 : ℝ)) =
        MarketMonitor.preLambdaFromMomentum (List.replicate 20 (1 : ℝ)) ∧
      (MarketMonitor.calculateLambdaFromMomentum (List.replicate 20 (1 : ℝ)) = 0.707 ∨
        (0.3 ≤ MarketMonitor.calculateLambdaFromMomentum (List.replicate 20 (1 : ℝ)) ∧
          MarketMonitor.calculateLambdaFromMomentum (List.replicate 20 (1 : ℝ)) ≤ 0.9))) ∧
    ((0.3 ≤ PolymarketMonitor.preLambda 3 1 0.5 0.5 ∧
      PolymarketMonitor.preLambda 3 1 0.5 0.5 ≤ 0.9) ∧
      PolymarketMonitor.calculateLambda 3 1 0.5 0.5 =
        PolymarketMonitor.preLambda 3 1 0.5 0.5 ∧
      (PolymarketMonitor.calculateLambda 3 1 0.5 0.5 = 0.707 ∨
        (0.3 ≤ PolymarketMonitor.calculateLambda 3 1 0.5 0.5 ∧
          PolymarketMonitor.calculateLambda 3 1 0.5 0.5 ≤ 0.9))) :=
  ⟨estimator_preclamp_range_amended.1 (List.replicate 10 (1 : ℝ)) (by decide),
   estimator_preclamp_range_amended.2.1 [],
   ⟨(estimator_preclamp_range_amended.2.2.1 3 1 (by norm_num) (by norm_num)).1,
    (estimator_preclamp_range_amended.2.2.1 3 1 (by norm_num) (by norm_num)).2.1
      (by norm_num),
    (estimator_preclamp_range_amended.2.2.1 3 1 (by norm_num) (by norm_num)).2.2⟩,
   ⟨(estimator_preclamp_range_amended.2.2.2.1 (List.replicate 20 (1 : ℝ))).1,
    (estimator_preclamp_range_amended.2.2.2.1 (List.replicate 20 (1 : ℝ))).2.1
      (by decide),
    (estimator_preclamp_range_amended.2.2.2.1 (List.replicate 20 (1 : ℝ))).2.2⟩,
   ⟨(estimator_preclamp_range_amended.2.2.2.2 3 1 0.5 0.5 (by norm_num)
      (by norm_num)).1,
    (estimator_preclamp_range_amended.2.2.2.2 3 1 0.5 0.5 (by norm_num)
      (by norm_num)).2.1 (by norm_num),
    (estimator_preclamp_range_amended.2.2.2.2 3 1 0.5 0.5 (by norm_num)
      (by norm_num)).2.2⟩⟩

/-- C1: For every price history, `calculateEta` (in both monitor variants)
returns a value in [0.1, 0.95]; and for two histories of equal length whose
computed return volatilities satisfy `v1 ≤ v2`, the eta of the `v1` history
is at least the eta of the `v2` history — eta is monotonically non-increasing
in volatility (proved for `≤`, which subsumes the claim's strict `v1 < v2`). -/
theorem calculateEta_range_and_antitone :
    (∀ h : List ℝ, 0.1 ≤ MarketMonitor.calculateEta h ∧
      MarketMonitor.calculateEta h ≤ 0.95) ∧
    (∀ h : List ℝ, 0.1 ≤ PolymarketMonitor.calculateEta h ∧
      PolymarketMonitor.calculateEta h ≤ 0.95) ∧
    (∀ h1 h2 : List ℝ, h1.length = h2.length →
      volatilityOf (returnsOf h1) ≤ volatilityOf (returnsOf h2) →
      MarketMonitor.calculateEta h2 ≤ MarketMonitor.calculateEta h1) ∧
    (∀ h1 h2 : List ℝ, h1.length = h2.length →
      volatilityOf (returnsOfEps h1) ≤ volatilityOf (returnsOfEps h2) →
      PolymarketMonitor.calculateEta h2 ≤ PolymarketMonitor.calculateEta h1) := by
  refine ⟨fun h => ?_, fun h => ?_,
    fun h1 h2 hlen hvol => ?_, fun h1 h2 hlen hvol => ?_⟩
  · unfold MarketMonitor.calculateEta
    split
    · norm_num
    · exact etaOfVol_mem _
  · unfold PolymarketMonitor.calculateEta
    split
    · norm_num
    · exact etaOfVol_mem _
  · unfold MarketMonitor.calculateEta
    by_cases hl : h1.length < 10
    · have hl2 : h2.length < 10 := hlen ▸ hl
      rw [if_pos hl, if_pos hl2]
    · have hl2 : ¬h2.length < 10 := hlen ▸ hl
      rw [if_neg hl, if_neg hl2]
      exact etaOfVol_anti (Real.sqrt_nonneg _) hvol
  · unfold PolymarketMonitor.calculateEta
    by_cases hl : h1.length < 10
    · have hl2 : h2.length < 10 := hlen ▸ hl
      rw [if_pos hl, if_pos hl2]
    · have hl2 : ¬h2.length < 10 := hlen ▸ hl
      rw [if_neg hl, if_neg hl2]
      exact etaOfVol_anti (Real.sqrt_nonneg _) hvol

/-- Witness for C1, instantiating every hypothesis at a concrete history. -/
theorem calculateEta_range_and_antitone_witness :
    (0.1 ≤ MarketMonitor.calculateEta [1, 2] ∧
      MarketMonitor.calculateEta [1, 2] ≤ 0.95) ∧
    (0.1 ≤ PolymarketMonitor.calculateEta [1, 2] ∧
      PolymarketMonitor.calculateEta [1, 2] ≤ 0.95) ∧
    MarketMonitor.calculateEta [1, 2] ≤ MarketMonitor.calculateEta [1, 2] ∧
    PolymarketMonitor.calculateEta [1, 2] ≤ PolymarketMonitor.calculateEta [1, 2] :=
  ⟨calculateEta_range_and_antitone.1 [1, 2],
   calculateEta_range_and_antitone.2.1 [1, 2],
   calculateEta_range_and_antitone.2.2.1 [1, 2] [1, 2] rfl le_rfl,
   calculateEta_range_and_antitone.2.2.2 [1, 2] [1, 2] rfl le_rfl⟩

/-- One insertion into a buffer not above capacity leaves it not above capacity. -/
lemma pushPrice_length_le {α : Type} {maxSize : ℕ} {h : List α} (p : α)
    (hh : h.length ≤ maxSize) : (pushPrice maxSize h p).length ≤ maxSize := by
  show (if (h ++ [p]).length > maxSize then (h ++ [p]).tail
    else h ++ [p]).length ≤ maxSize
  split
  · rename_i hc
    simp at hc ⊢
    omega
  · rename_i hc
    simp at hc ⊢
    omega

/-- Folding per-tick insertions keeps exactly the trailing window: starting
below capacity, the buffer ends as the suffix of all pushed values that fits. -/
lemma foldl_pushPrice_eq {α : Type} (maxSize : ℕ) :
    ∀ (ps h : List α), h.length ≤ maxSize →
      List.foldl (pushPrice maxSize) h ps =
        (h ++ ps).drop (h.length + ps.length - maxSize) := by
  intro ps
  induction ps with
  | nil =>
    intro h hh
    simp [Nat.sub_eq_zero_of_le hh]
  | cons p ps ih =>
    intro h hh
    rw [List.foldl_cons]
    by_cases hc : (h ++ [p]).length > maxSize
    · have hlen : h.length = maxSize := by
        simp at hc
        omega
      have hstep : pushPrice maxSize h p = (h ++ [p]).drop 1 := by
        show (if (h ++ [p]).length > maxSize then (h ++ [p]).tail
          else h ++ [p]) = (h ++ [p]).drop 1
        rw [if_pos hc, ← List.drop_one]
      have hdlen : ((h ++ [p]).drop 1).length ≤ maxSize := by
        simp
        omega
      rw [hstep, ih _ hdlen,
        ← List.drop_append_of_le_length (show 1 ≤ (h ++ [p]).length by simp),
        List.drop_drop, List.append_assoc, List.singleton_append]
      congr 1
      simp
      omega
    · have hstep : pushPrice maxSize h p = h ++ [p] := by
        show (if (h ++ [p]).length > maxSize then (h ++ [p]).tail
          else h ++ [p]) = h ++ [p]
        rw [if_neg hc]
      have hdlen : (h ++ [p]).length ≤ maxSize := by
        simp at hc ⊢
        omega
      rw [hstep, ih _ hdlen, List.append_assoc, List.singleton_append]
      congr 1
      simp
      omega

/-- The capacity invariant holds after every insertion of a fold. -/
lemma foldl_pushPrice_length {α : Type} (maxSize : ℕ) :
    ∀ (ps h : List α), h.length ≤ maxSize →
      (List.foldl (pushPrice maxSize) h ps).length ≤ maxSize := by
  intro ps
  induction ps with
  | nil =>
    intro h hh
    simpa using hh
  | cons p ps ih =>
    intro h hh
    rw [List.foldl_cons]
    exact ih _ (pushPrice_length_le p hh)

/-- `readings` after `updateStats` (definitional unfolding). -/
lemma updateStats_readings (s : Stats) (r : OracleResult) :
    (updateStats s r).readings = s.readings + 1 := rfl

/-- `avgDelta` after `updateStats`, with the increment-then-subtract of the
source simplified away. -/
lemma updateStats_avgDelta (s : Stats) (r : OracleResult) :
    (updateStats s r).avgDelta =
      (s.avgDelta * (s.readings : ℝ) + r.delta) / ((s.readings : ℝ) + 1) := by
  show (s.avgDelta * (((s.readings + 1 : ℕ) : ℝ) - 1) + r.delta) /
      ((s.readings + 1 : ℕ) : ℝ) = _
  push_cast
  ring_nf

/-- `avgEfficiency` after `updateStats`. -/
lemma updateStats_avgEfficiency (s : Stats) (r : OracleResult) :
    (updateStats s r).avgEfficiency =
      (s.avgEfficiency * (s.readings : ℝ) + r.efficiencyPercent) /
        ((s.readings : ℝ) + 1) := by
  show (s.avgEfficiency * (((s.readings + 1 : ℕ) : ℝ) - 1) + r.efficiencyPercent) /
      ((s.readings + 1 : ℕ) : ℝ) = _
  push_cast
  ring_nf

/-- C2: a history of fewer than 10 prices yields exactly the neutral default
0.707, whatever its contents, in both monitor variants. -/
theorem calculateEta_short_history_default (h : List ℝ) (hlen : h.length < 10) :
    MarketMonitor.calculateEta h = 0.707 ∧ PolymarketMonitor.calculateEta h = 0.707 :=
  ⟨if_pos hlen, if_pos hlen⟩

/-- Witness for C2 at a concrete one-element history. -/
theorem calculateEta_short_history_default_witness :
    MarketMonitor.calculateEta [0.25] = 0.707 ∧
    PolymarketMonitor.calculateEta [0.25] = 0.707 :=
  calculateEta_short_history_default [0.25] (by decide)

/-- C4: pushing `maxHistorySize + 1` prices through the per-tick insertion,
starting from an empty buffer, leaves exactly `maxHistorySize` entries — the
last `maxHistorySize` pushed values in order (the tail of the pushed
sequence, i.e. the oldest sample evicted) — and after every insertion along
the way the invariant `length ≤ maxHistorySize` holds. -/
theorem price_buffer_fifo (maxSize : ℕ) (ps : List ℝ)
    (hps : ps.length = maxSize + 1) :
    (List.foldl (pushPrice maxSize) [] ps = ps.tail ∧
      (List.foldl (pushPrice maxSize) [] ps).length = maxSize) ∧
    ∀ pre suf : List ℝ, ps = pre ++ suf →
      (List.foldl (pushPrice maxSize) [] pre).length ≤ maxSize := by
  have hmain : List.foldl (pushPrice maxSize) [] ps = ps.tail := by
    rw [foldl_pushPrice_eq maxSize ps [] (by simp)]
    simp only [List.nil_append, List.length_nil, Nat.zero_add]
    rw [hps, show maxSize + 1 - maxSize = 1 by omega, List.drop_one]
  refine ⟨⟨hmain, ?_⟩, fun pre suf hsplit => ?_⟩
  · rw [hmain, List.length_tail, hps]
    omega
  · exact foldl_pushPrice_length maxSize pre [] (by simp)

/-- Witness for C4 with capacity 2 and three pushed prices. -/
theorem price_buffer_fifo_witness :
    (List.foldl (pushPrice 2) ([] : List ℝ) [1, 2, 3] = [(1 : ℝ), 2, 3].tail ∧
      (List.foldl (pushPrice 2) ([] : List ℝ) [1, 2, 3]).length = 2) ∧
    (List.foldl (pushPrice 2) ([] : List ℝ) [1]).length ≤ 2 :=
  ⟨(price_buffer_fifo 2 [1, 2, 3] rfl).1,
   (price_buffer_fifo 2 [1, 2, 3] rfl).2 [1] [2, 3] rfl⟩

/-- C5: a cycle whose oracle call fails (`computeOracleDelta` yields `null`)
leaves every field of the running statistics unchanged and does not invoke
the critical-equilibrium alert. -/
theorem failed_cycle_preserves_stats (maxSize : ℕ) (history : List ℝ)
    (stats : Stats) (price : ℝ) :
    (processTick maxSize history stats price none).2.1.readings = stats.readings ∧
    (processTick maxSize history stats price none).2.1.avgDelta = stats.avgDelta ∧
    (processTick maxSize history stats price none).2.1.avgEfficiency =
      stats.avgEfficiency ∧
    (processTick maxSize history stats price none).2.1.optimalCount =
      stats.optimalCount ∧
    (processTick maxSize history stats price none).2.2 = false :=
  ⟨rfl, rfl, rfl, rfl, rfl⟩

/-- C6: folding `updateStats` once per result over any sequence of results
makes `avgDelta` the batch average of the deltas and `avgEfficiency` the
batch average of the efficiency percentages, exactly (in the idealised real
arithmetic; the implementation matches within floating-point tolerance). -/
theorem updateStats_incremental_mean (rs : List OracleResult) :
    (List.foldl updateStats initialStats rs).readings = rs.length ∧
    (List.foldl updateStats initialStats rs).avgDelta =
      (rs.map OracleResult.delta).sum / (rs.length : ℝ) ∧
    (List.foldl updateStats initialStats rs).avgEfficiency =
      (rs.map OracleResult.efficiencyPercent).sum / (rs.length : ℝ) := by
  induction rs using List.reverseRecOn with
  | nil => simp [initialStats]
  | append_singleton rs r ih =>
    obtain ⟨ih1, ih2, ih3⟩ := ih
    have hsum : ∀ f : OracleResult → ℝ,
        (rs.map f).sum / (rs.length : ℝ) * (rs.length : ℝ) = (rs.map f).sum := by
      intro f
      rcases Nat.eq_zero_or_pos rs.length with h0 | h0
      · obtain rfl : rs = [] := List.length_eq_zero.mp h0
        simp
      · exact div_mul_cancel₀ _ (by exact_mod_cast h0.ne')
    rw [List.foldl_append, List.foldl_cons, List.foldl_nil]
    refine ⟨?_, ?_, ?_⟩
    · rw [updateStats_readings, ih1]
      simp
    · rw [updateStats_avgDelta, ih1, ih2, hsum OracleResult.delta,
        List.map_append, List.sum_append]
      simp only [List.map_cons, List.map_nil, List.sum_cons, List.sum_nil,
        List.length_append, List.length_cons, List.length_nil]
      push_cast
      ring_nf
    · rw [updateStats_avgEfficiency, ih1, ih3, hsum OracleResult.efficiencyPercent,
        List.map_append, List.sum_append]
      simp only [List.map_cons, List.map_nil, List.sum_cons, List.sum_nil,
        List.length_append, List.length_cons, List.length_nil]
      push_cast
      ring_nf

/-- Every MarketMonitor eta is at least the clamp's lower bound. -/
lemma MM_calculateEta_lb (h : List ℝ) : 0.1 ≤ MarketMonitor.calculateEta h := by
  unfold MarketMonitor.calculateEta
  split
  · norm_num
  · exact clamp_lb _

/-- Every MarketMonitor imbalance lambda is at least the clamp's lower bound. -/
lemma MM_calculateLambda_lb (b a : ℝ) : 0.1 ≤ MarketMonitor.calculateLambda b a := by
  unfold MarketMonitor.calculateLambda
  split
  · norm_num
  · exact clamp_lb _

/-- Every MarketMonitor momentum lambda is at least the clamp's lower bound. -/
lemma MM_calculateLambdaFromMomentum_lb (h : List ℝ) :
    0.1 ≤ MarketMonitor.calculateLambdaFromMomentum h := by
  unfold MarketMonitor.calculateLambdaFromMomentum
  split
  · norm_num
  · exact clamp_lb _

/-- Every PolymarketMonitor eta is at least the clamp's lower bound. -/
lemma PM_calculateEta_lb (h : List ℝ) : 0.1 ≤ PolymarketMonitor.calculateEta h := by
  unfold PolymarketMonitor.calculateEta
  split
  · norm_num
  · exact clamp_lb _

/-- Every PolymarketMonitor lambda is at least the clamp's lower bound. -/
lemma PM_calculateLambda_lb (y n yp np : ℝ) :
    0.1 ≤ PolymarketMonitor.calculateLambda y n yp np := by
  unfold PolymarketMonitor.calculateLambda
  split
  · norm_num
  · exact clamp_lb _

/-- Every PolymarketMonitor momentum lambda is at least the clamp's lower bound. -/
lemma PM_calculateLambdaFromMomentum_lb (h : List ℝ) :
    0.1 ≤ PolymarketMonitor.calculateLambdaFromMomentum h := by
  unfold PolymarketMonitor.calculateLambdaFromMomentum
  split
  · norm_num
  · exact clamp_lb _

/-- On nonnegative reals, floor-based scaling equals truncation toward zero. -/
lemma scale_eq_trunc {x : ℝ} (hx : 0 ≤ x) :
    scaleToFixedPoint x = truncTowardZero (x * 1e9) := by
  unfold scaleToFixedPoint truncTowardZero
  rw [if_pos (mul_nonneg hx (by norm_num))]

/-- C7: for every eta and lambda the estimators can produce, the scaled
integers sent to the contract — `Math.floor(x * 1e9)` — equal `x * 1e9`
truncated toward zero: every estimator output is at least 0.1, so the scaled
value is nonnegative and flooring coincides with truncation toward zero. -/
theorem scaled_parameters_truncate_toward_zero (h : List ℝ) (b a y n yp np : ℝ) :
    scaleToFixedPoint (MarketMonitor.calculateEta h) =
      truncTowardZero (MarketMonitor.calculateEta h * 1e9) ∧
    scaleToFixedPoint (MarketMonitor.calculateLambda b a) =
      truncTowardZero (MarketMonitor.calculateLambda b a * 1e9) ∧
    scaleToFixedPoint (MarketMonitor.calculateLambdaFromMomentum h) =
      truncTowardZero (MarketMonitor.calculateLambdaFromMomentum h * 1e9) ∧
    scaleToFixedPoint (PolymarketMonitor.calculateEta h) =
      truncTowardZero (PolymarketMonitor.calculateEta h * 1e9) ∧
    scaleToFixedPoint (PolymarketMonitor.calculateLambda y n yp np) =
      truncTowardZero (PolymarketMonitor.calculateLambda y n yp np * 1e9) ∧
    scaleToFixedPoint (PolymarketMonitor.calculateLambdaFromMomentum h) =
      truncTowardZero (PolymarketMonitor.calculateLambdaFromMomentum h * 1e9) :=
  ⟨scale_eq_trunc (le_trans (by norm_num) (MM_calculateEta_lb h)),
   scale_eq_trunc (le_trans (by norm_num) (MM_calculateLambda_lb b a)),
   scale_eq_trunc (le_trans (by norm_num) (MM_calculateLambdaFromMomentum_lb h)),
   scale_eq_trunc (le_trans (by norm_num) (PM_calculateEta_lb h)),
   scale_eq_trunc (le_trans (by norm_num) (PM_calculateLambda_lb y n yp np)),
   scale_eq_trunc (le_trans (by norm_num) (PM_calculateLambdaFromMomentum_lb h))⟩

/-- C8: the transport close handler schedules exactly one resubscription
attempt, after the fixed 5000 ms delay, when the run flag is true, and
schedules none when the run flag is false. -/
theorem close_handler_reconnect :
    (handleClose true).length = 1 ∧ handleClose true = [5000] ∧
    (handleClose false).length = 0 :=
  ⟨rfl, rfl, rfl⟩

/-- Rounding to three decimals stays within [0.1, 0.9]. -/
lemma toFixed3_mem {x : ℝ} (h1 : 0.1 ≤ x) (h2 : x ≤ 0.9) :
    0.1 ≤ toFixed3 x ∧ toFixed3 x ≤ 0.9 := by
  unfold toFixed3
  have hlb : (100 : ℤ) ≤ round (x * 1000) := by
    rw [round_eq]
    exact Int.le_floor.mpr (by push_cast; linarith)
  have hub : round (x * 1000) ≤ 900 := by
    rw [round_eq]
    have hlt : ⌊x * 1000 + 1 / 2⌋ < 901 := Int.floor_lt.mpr (by push_cast; linarith)
    omega
  constructor
  · have hc : (100 : ℝ) ≤ (round (x * 1000) : ℝ) := by exact_mod_cast hlb
    linarith
  · have hc : ((round (x * 1000) : ℤ) : ℝ) ≤ 900 := by exact_mod_cast hub
    linarith

/-- Rounding to an integer keeps a value at least 500000 strictly positive. -/
lemma toFixed0_pos {x : ℝ} (hx : 500000 ≤ x) : 0 < toFixed0 x := by
  unfold toFixed0
  have hlb : (500000 : ℤ) ≤ round x := by
    rw [round_eq]
    exact Int.le_floor.mpr (by push_cast; linarith)
  have hc : (500000 : ℝ) ≤ (round x : ℝ) := by exact_mod_cast hlb
  linarith

/-- C9 counterexample: the simulated reading built by the fallback generator
carries no field tagging it as synthetic — probing a marker field of the
returned object yields `undefined` (`none`), never `some true`.  Only log
lines at the call site signal the fallback. -/
theorem synthetic_reading_untagged :
    (PolymarketMonitor.generateSimulatedMarket "market" 0.5 0.5 0.5 0.5 0.5).synthetic
      = none ∧
    ¬(PolymarketMonitor.generateSimulatedMarket "market" 0.5 0.5 0.5 0.5 0.5).synthetic
      = some true := by
  constructor
  · rfl
  · intro hcontra
    exact Option.noConfusion hcontra

/-- C9 (amended): when the source is unreachable or unrecognized, the
synthetic fallback reading has all token prices within [0.1, 0.9] and
strictly positive volume magnitudes, but it carries no tag marking it as
synthetic (no field of the reading records that it is simulated). -/
theorem synthetic_reading_bounds (slug : String) (r0 r1 r2 r3 r4 : ℝ)
    (h0a : 0 ≤ r0) (h0b : r0 < 1) (h1a : 0 ≤ r1) (h1b : r1 < 1)
    (h2a : 0 ≤ r2) (h2b : r2 < 1) (h3a : 0 ≤ r3) (h3b : r3 < 1)
    (h4a : 0 ≤ r4) (h4b : r4 < 1) :
    (0.1 ≤ (PolymarketMonitor.simulatedYesToken slug r0 r1 r2 r3 r4).price ∧
      (PolymarketMonitor.simulatedYesToken slug r0 r1 r2 r3 r4).price ≤ 0.9) ∧
    (0.1 ≤ (PolymarketMonitor.simulatedNoToken slug r0 r1 r2 r3 r4).price ∧
      (PolymarketMonitor.simulatedNoToken slug r0 r1 r2 r3 r4).price ≤ 0.9) ∧
    0 < (PolymarketMonitor.simulatedYesToken slug r0 r1 r2 r3 r4).volume24h ∧
    0 < (PolymarketMonitor.simulatedYesToken slug r0 r1 r2 r3 r4).volume ∧
    0 < (PolymarketMonitor.simulatedNoToken slug r0 r1 r2 r3 r4).volume24h ∧
    0 < (PolymarketMonitor.simulatedNoToken slug r0 r1 r2 r3 r4).volume ∧
    (PolymarketMonitor.generateSimulatedMarket slug r0 r1 r2 r3 r4).synthetic = none := by
  have hyp1 : 0.1 ≤ max 0.1 (min 0.9 (0.5 + (r0 - 0.5) * 0.2)) := le_max_left _ _
  have hyp2 : max 0.1 (min 0.9 (0.5 + (r0 - 0.5) * 0.2)) ≤ 0.9 :=
    max_le (by norm_num) (min_le_left _ _)
  have hnp1 : 0.1 ≤ 1 - max 0.1 (min 0.9 (0.5 + (r0 - 0.5) * 0.2)) := by linarith
  have hnp2 : 1 - max 0.1 (min 0.9 (0.5 + (r0 - 0.5) * 0.2)) ≤ 0.9 := by linarith
  have hvol : ∀ r : ℝ, 0 ≤ r → (500000 : ℝ) ≤ r * 1000000 + 500000 := by
    intro r hr
    nlinarith
  exact ⟨toFixed3_mem hyp1 hyp2, toFixed3_mem hnp1 hnp2,
    toFixed0_pos (hvol r1 h1a), toFixed0_pos (hvol r2 h2a),
    toFixed0_pos (hvol r3 h3a), toFixed0_pos (hvol r4 h4a), rfl⟩

/-- Witness for the amended C9 with all five pseudo-random draws at 0.5. -/
theorem synthetic_reading_bounds_witness :
    (0.1 ≤ (PolymarketMonitor.simulatedYesToken "m" 0.5 0.5 0.5 0.5 0.5).price ∧
      (PolymarketMonitor.simulatedYesToken "m" 0.5 0.5 0.5 0.5 0.5).price ≤ 0.9) ∧
    (0.1 ≤ (PolymarketMonitor.simulatedNoToken "m" 0.5 0.5 0.5 0.5 0.5).price ∧
      (PolymarketMonitor.simulatedNoToken "m" 0.5 0.5 0.5 0.5 0.5).price ≤ 0.9) ∧
    0 < (PolymarketMonitor.simulatedYesToken "m" 0.5 0.5 0.5 0.5 0.5).volume24h ∧
    0 < (PolymarketMonitor.simulatedYesToken "m" 0.5 0.5 0.5 0.5 0.5).volume ∧
    0 < (PolymarketMonitor.simulatedNoToken "m" 0.5 0.5 0.5 0.5 0.5).volume24h ∧
    0 < (PolymarketMonitor.simulatedNoToken "m" 0.5 0.5 0.5 0.5 0.5).volume ∧
    (PolymarketMonitor.generateSimulatedMarket "m" 0.5 0.5 0.5 0.5 0.5).synthetic = none :=
  synthetic_reading_bounds "m" 0.5 0.5 0.5 0.5 0.5 (by norm_num) (by norm_num)
    (by norm_num) (by norm_num) (by norm_num) (by norm_num) (by norm_num)
    (by norm_num) (by norm_num) (by norm_num)

end

end OracleBot
